import Mathlib

/-!
Verification of the watchy task supervisor and its agent tool loop.

The Go source is shallowly embedded: the sqlite tasks table becomes a list of
task records, process control, the filesystem and the shell become explicit
oracle functions fixed for the duration of a call, Unix times and machine
integers become `Int`, and Go string lengths are modelled by character counts
(all concrete inputs used below are ASCII, where the two coincide).
-/

namespace Watchy

/-- Task status: the three values allowed by the sqlite CHECK constraint
(status IN (running, stopped, crashed)). -/
inductive Status where
  | running
  | stopped
  | crashed
deriving DecidableEq, Repr

/-- Rendering of a status as the Go string stored in the database. -/
def statusStr : Status → String
  | .running => "running"
  | .stopped => "stopped"
  | .crashed => "crashed"

/-- A row of the tasks table (package task, struct Task). endTime is NULL
(`none`) until the task leaves the running state. -/
structure Task where
  id : Int
  name : String
  command : String
  pid : Int
  status : Status
  startTime : Int
  endTime : Option Int
  logPath : String
  createdAt : Int
deriving DecidableEq, Repr

/-- The tasks table. -/
abbrev Store := List Task

/-- Storage.GetTask: the row with the given id (ids are unique, being the
primary key; the embedding takes the first match). -/
def getTask (s : Store) (id : Int) : Option Task :=
  s.find? (fun t => t.id == id)

/-- The id sqlite AUTOINCREMENT assigns to the next inserted row, modelled as
one more than the largest current id (0 for an empty table). -/
def newTaskId (s : Store) : Int :=
  (s.map Task.id).foldr max 0 + 1

/-- Storage.CreateTask: inserts a new row with status running and NULL
end_time, start_time and created_at both the present time, returning the
table afterwards and the new id. -/
def createTask (s : Store) (name command : String) (pid : Int)
    (logPath : String) (now : Int) : Store × Int :=
  let id := newTaskId s
  (s ++ [{ id := id, name := name, command := command, pid := pid,
           status := .running, startTime := now, endTime := none,
           logPath := logPath, createdAt := now }], id)

/-- The per-row effect of Storage.UpdateTaskStatus: the statuses stopped and
crashed also set end_time to the present time; any other status leaves
end_time untouched. -/
def applyStatus (st : Status) (now : Int) (t : Task) : Task :=
  if st = .stopped ∨ st = .crashed then
    { t with status := st, endTime := some now }
  else
    { t with status := st }

/-- Storage.UpdateTaskStatus: updates the row with the given id. -/
def updateTaskStatus (s : Store) (id : Int) (st : Status) (now : Int) : Store :=
  s.map (fun t => if t.id == id then applyStatus st now t else t)

/-- A signal sent to a process (positive pid) or a process group
(negative pid). -/
inductive Signal where
  | sigterm
  | sigkill
deriving DecidableEq, Repr

/-- The external world the manager and the tools interact with, fixed for
the duration of one call. -/
structure World where
  /-- syscall.Kill on the given pid: true when delivery succeeds -/
  kill : Int → Signal → Bool
  /-- CheckPID: whether probing the pid with signal 0 finds it alive -/
  alive : Int → Bool
  /-- pid handed out by cmd.Start, none when spawning fails -/
  spawnPid : Option Int
  /-- os.ReadFile outcome for a path -/
  fs : String → Except String String
  /-- running a string through bash -c: (descriptive error when the command
  failed, combined output) -/
  shell : String → Option String × String
  /-- the present Unix time -/
  now : Int
  /-- log file path created for a new task -/
  logPath : String
  /-- formatting of a Unix time in the layout used by getTaskInfo -/
  fmtTime : Int → String

/-- Manager.StartTask: rejects an empty command, spawns bash -c command as a
process-group leader, then persists the record. Log-file creation and the
database insert are modelled as succeeding (their failure paths create no
record and are exercised by no claim). -/
def managerStartTask (w : World) (s : Store) (name command : String) :
    Except String (Store × Int) :=
  if command = "" then .error "empty command"
  else
    match w.spawnPid with
    | none => .error "failed to start process"
    | some pid => .ok (createTask s name command pid w.logPath w.now)

/-- Outcome of cmd.Wait as the watcher sees it: nil (the child exited with
code 0), an exec.ExitError carrying the child exit code, or any other error,
which carries no exit code. -/
inductive WaitOutcome where
  | success
  | exitError (code : Int)
  | otherError
deriving DecidableEq, Repr

/-- The final status Manager.watchProcess computes from the Wait outcome:
stopped unless the error is an ExitError with a nonzero code. -/
def watchStatus : WaitOutcome → Status
  | .success => .stopped
  | .exitError code => if code ≠ 0 then .crashed else .stopped
  | .otherError => .stopped

/-- Manager.watchProcess, from the point Wait has returned: one status write
through UpdateTaskStatus. -/
def watchProcess (s : Store) (taskID : Int) (wo : WaitOutcome) (now : Int) :
    Store :=
  updateTaskStatus s taskID (watchStatus wo) now

/-- Manager.StopTask. Returns the call result, the table afterwards and the
signals sent, each with the pid it was addressed to (negative = the whole
process group). -/
def managerStopTask (w : World) (s : Store) (id : Int) :
    Except String Unit × Store × List (Int × Signal) :=
  match getTask s id with
  | none => (.error ("task " ++ toString id ++ " not found"), s, [])
  | some t =>
    if t.status ≠ .running then
      (.error ("task " ++ toString id ++ " is not running (status: "
                ++ statusStr t.status ++ ")"), s, [])
    else if w.kill (-t.pid) .sigterm then
      (.ok (), updateTaskStatus s id .stopped w.now, [(-t.pid, .sigterm)])
    else if w.kill (-t.pid) .sigkill then
      (.ok (), updateTaskStatus s id .stopped w.now,
        [(-t.pid, .sigterm), (-t.pid, .sigkill)])
    else
      (.error "failed to kill process", s,
        [(-t.pid, .sigterm), (-t.pid, .sigkill)])

/-- Manager.SyncTaskStatus: over a snapshot of the table, marks every
running task whose pid is no longer alive as crashed. -/
def syncTaskStatus (w : World) (s : Store) : Store :=
  s.foldl
    (fun acc t =>
      if t.status = .running ∧ ¬ w.alive t.pid then
        updateTaskStatus acc t.id .crashed w.now
      else acc)
    s

/-- The record-level invariant: end_time is set exactly when the status is
not running. -/
def endTimeInv (t : Task) : Prop :=
  t.endTime ≠ none ↔ t.status ≠ Status.running

instance : DecidablePred endTimeInv := fun t => by
  unfold endTimeInv; infer_instance

/-- The table-level invariant: every row satisfies `endTimeInv`. -/
def storeInv (s : Store) : Prop :=
  ∀ t ∈ s, endTimeInv t

instance : DecidablePred storeInv := fun s => by
  unfold storeInv; infer_instance

lemma applyStatus_id (st : Status) (now : Int) (t : Task) :
    (applyStatus st now t).id = t.id := by
  unfold applyStatus; split <;> rfl

lemma endTimeInv_applyStatus {st : Status} (h : st ≠ .running)
    (now : Int) (t : Task) : endTimeInv (applyStatus st now t) := by
  cases st with
  | running => exact absurd rfl h
  | stopped => simp [applyStatus, endTimeInv]
  | crashed => simp [applyStatus, endTimeInv]

lemma storeInv_updateTaskStatus {st : Status} (h : st ≠ .running)
    {s : Store} (hs : storeInv s) (id : Int) (now : Int) :
    storeInv (updateTaskStatus s id st now) := by
  intro t' ht'
  obtain ⟨t, ht, rfl⟩ := List.mem_map.mp ht'
  by_cases hid : t.id == id
  · simp only [hid, if_pos]
    exact endTimeInv_applyStatus h now t
  · simp only [hid, if_neg, Bool.false_eq_true, not_false_iff]
    simpa [hid] using hs t ht

lemma watchStatus_ne_running (wo : WaitOutcome) : watchStatus wo ≠ .running := by
  cases wo with
  | success => simp [watchStatus]
  | exitError code => by_cases h : code = 0 <;> simp [watchStatus, h]
  | otherError => simp [watchStatus]

lemma storeInv_syncAux (w : World) (l : List Task) :
    ∀ acc : Store, storeInv acc →
      storeInv (l.foldl
        (fun acc t =>
          if t.status = .running ∧ ¬ w.alive t.pid then
            updateTaskStatus acc t.id .crashed w.now
          else acc) acc) := by
  induction l with
  | nil => intro acc h; exact h
  | cons t ts ih =>
    intro acc h
    simp only [List.foldl_cons]
    split
    · exact ih _ (storeInv_updateTaskStatus (by simp) h _ _)
    · exact ih _ h

/-- C1: every task-state write preserves the end-time invariant: creating a
task writes status running with no end time, and the watcher completion
write, StopTask and SyncTaskStatus all go through UpdateTaskStatus with a
non-running status, which sets the end time. Hence if every row of the table
relates end_time and status correctly, so does every row after any of these
operations. -/
theorem c1_endtime_invariant_preserved
    (w : World) (s : Store) (name command : String) (pid : Int)
    (logPath : String) (now : Int) (id : Int) (wo : WaitOutcome)
    (hs : storeInv s) :
    storeInv (createTask s name command pid logPath now).1
    ∧ storeInv (watchProcess s id wo now)
    ∧ storeInv (managerStopTask w s id).2.1
    ∧ storeInv (syncTaskStatus w s) := by
  refine ⟨?_, ?_, ?_, ?_⟩
  · intro t ht
    rcases List.mem_append.mp ht with h | h
    · exact hs t h
    · simp only [List.mem_singleton] at h
      subst h
      simp [endTimeInv]
  · exact storeInv_updateTaskStatus (watchStatus_ne_running wo) hs id now
  · unfold managerStopTask
    cases getTask s id with
    | none => exact hs
    | some t =>
      dsimp only
      split_ifs with h1 h2 h3
      · exact hs
      · simpa using storeInv_updateTaskStatus (by simp) hs id w.now
      · simpa using storeInv_updateTaskStatus (by simp) hs id w.now
      · exact hs
  · exact storeInv_syncAux w s s hs

/-- C1 witness: the preservation theorem applied to a concrete two-row table
satisfying the invariant. -/
theorem c1_endtime_invariant_preserved_witness :
    storeInv [{ id := 1, name := "a", command := "sleep 5", pid := 7,
                status := .running, startTime := 3, endTime := none,
                logPath := "/l1", createdAt := 3 },
              { id := 2, name := "b", command := "true", pid := 9,
                status := .stopped, startTime := 4, endTime := some 6,
                logPath := "/l2", createdAt := 4 }]
    ∧ storeInv (syncTaskStatus
        { kill := fun _ _ => true, alive := fun _ => false,
          spawnPid := some 11, fs := fun _ => .error "x",
          shell := fun _ => (none, ""), now := 20, logPath := "/l3",
          fmtTime := fun _ => "t" }
        [{ id := 1, name := "a", command := "sleep 5", pid := 7,
           status := .running, startTime := 3, endTime := none,
           logPath := "/l1", createdAt := 3 },
         { id := 2, name := "b", command := "true", pid := 9,
           status := .stopped, startTime := 4, endTime := some 6,
           logPath := "/l2", createdAt := 4 }]) := by
  refine ⟨by decide, ?_⟩
  exact (c1_endtime_invariant_preserved
    { kill := fun _ _ => true, alive := fun _ => false,
      spawnPid := some 11, fs := fun _ => .error "x",
      shell := fun _ => (none, ""), now := 20, logPath := "/l3",
      fmtTime := fun _ => "t" }
    _ "n" "c" 5 "/l4" 21 1 .success (by decide)).2.2.2

lemma getTask_updateTaskStatus (s : Store) (id : Int) (st : Status)
    (now : Int) :
    getTask (updateTaskStatus s id st now) id
      = (getTask s id).map (applyStatus st now) := by
  induction s with
  | nil => rfl
  | cons t ts ih =>
    simp only [getTask, updateTaskStatus, List.map_cons] at ih ⊢
    by_cases h : (t.id == id) = true
    · rw [if_pos h,
        List.find?_cons_of_pos
          (List.map (fun u => if u.id == id then applyStatus st now u else u)
            ts)
          (show (fun u : Task => u.id == id) (applyStatus st now t) = true
            by simpa [applyStatus_id] using h),
        List.find?_cons_of_pos ts
          (show (fun u : Task => u.id == id) t = true from h)]
      rfl
    · rw [if_neg h,
        List.find?_cons_of_neg
          (List.map (fun u => if u.id == id then applyStatus st now u else u)
            ts)
          (show ¬ (fun u : Task => u.id == id) t = true from h),
        List.find?_cons_of_neg ts
          (show ¬ (fun u : Task => u.id == id) t = true from h)]
      exact ih

/-- C2: classification of the child outcome by the per-task watcher: Wait
returning nil (exit code 0) yields a final status of stopped, an ExitError
with nonzero exit code yields crashed, and a wait error carrying no exit
code yields stopped; in every case the end time of the record is set. -/
theorem c2_watcher_final_status (s : Store) (id : Int) (now : Int) (t : Task)
    (h : getTask s id = some t) :
    getTask (watchProcess s id .success now) id
        = some { t with status := .stopped, endTime := some now }
    ∧ (∀ c : Int, c ≠ 0 →
        getTask (watchProcess s id (.exitError c) now) id
          = some { t with status := .crashed, endTime := some now })
    ∧ getTask (watchProcess s id .otherError now) id
        = some { t with status := .stopped, endTime := some now } := by
  refine ⟨?_, ?_, ?_⟩
  · unfold watchProcess
    rw [getTask_updateTaskStatus, h]
    simp [watchStatus, applyStatus]
  · intro c hc
    unfold watchProcess
    rw [getTask_updateTaskStatus, h]
    simp [watchStatus, hc, applyStatus]
  · unfold watchProcess
    rw [getTask_updateTaskStatus, h]
    simp [watchStatus, applyStatus]

/-- C2 witness: the watcher classification applied to a concrete one-row
table, at exit outcomes 0, 7 and a code-less wait error. -/
theorem c2_watcher_final_status_witness :
    getTask (watchProcess
        [{ id := 1, name := "a", command := "sleep 5", pid := 7,
           status := .running, startTime := 3, endTime := none,
           logPath := "/l1", createdAt := 3 }] 1 (.exitError 7) 50) 1
      = some { id := 1, name := "a", command := "sleep 5", pid := 7,
               status := .crashed, startTime := 3, endTime := some 50,
               logPath := "/l1", createdAt := 3 } :=
  (c2_watcher_final_status
    [{ id := 1, name := "a", command := "sleep 5", pid := 7,
       status := .running, startTime := 3, endTime := none,
       logPath := "/l1", createdAt := 3 }] 1 50
    { id := 1, name := "a", command := "sleep 5", pid := 7,
      status := .running, startTime := 3, endTime := none,
      logPath := "/l1", createdAt := 3 } (by decide)).2.1 7 (by decide)

/-- C3: StopTask on a task whose persisted status is not running returns the
is-not-running error, sends no signal at all, and leaves the whole table,
hence the task record in particular, unchanged. -/
theorem c3_stop_not_running (w : World) (s : Store) (id : Int) (t : Task)
    (h : getTask s id = some t) (hst : t.status ≠ .running) :
    managerStopTask w s id =
      (.error ("task " ++ toString id ++ " is not running (status: "
                ++ statusStr t.status ++ ")"), s, []) := by
  unfold managerStopTask
  rw [h]
  dsimp only
  rw [if_pos hst]

/-- C3 witness: stopping a concrete crashed task fails with the
is-not-running error, signals nothing and changes nothing. -/
theorem c3_stop_not_running_witness :
    managerStopTask
      { kill := fun _ _ => true, alive := fun _ => true, spawnPid := some 11,
        fs := fun _ => .error "x", shell := fun _ => (none, ""), now := 20,
        logPath := "/l3", fmtTime := fun _ => "t" }
      [{ id := 4, name := "a", command := "x", pid := 7, status := .crashed,
         startTime := 3, endTime := some 9, logPath := "/l1",
         createdAt := 3 }] 4
      = (.error "task 4 is not running (status: crashed)",
         [{ id := 4, name := "a", command := "x", pid := 7,
            status := .crashed, startTime := 3, endTime := some 9,
            logPath := "/l1", createdAt := 3 }], []) := by
  have := c3_stop_not_running
    { kill := fun _ _ => true, alive := fun _ => true, spawnPid := some 11,
      fs := fun _ => .error "x", shell := fun _ => (none, ""), now := 20,
      logPath := "/l3", fmtTime := fun _ => "t" }
    [{ id := 4, name := "a", command := "x", pid := 7, status := .crashed,
       startTime := 3, endTime := some 9, logPath := "/l1",
       createdAt := 3 }] 4
    { id := 4, name := "a", command := "x", pid := 7, status := .crashed,
      startTime := 3, endTime := some 9, logPath := "/l1", createdAt := 3 }
    (by decide) (by decide)
  simpa using this

/-- A Go interface value as produced by JSON unmarshalling of tool
arguments. JSON numbers decode to float64; the float payload is represented
by its truncation toward zero (the only aspect of it toInt observes; the
task ids occurring in practice are integral). -/
inductive GoVal where
  | vfloat (intPart : Int)
  | vint (n : Int)
  | vstr (s : String)
  | vbool (b : Bool)
  | vnull
deriving DecidableEq, Repr

/-- The agent helper toInt: a float64 or int is converted to int, every
other dynamic type silently maps to 0. -/
def toInt : GoVal → Int
  | .vfloat n => n
  | .vint n => n
  | _ => 0

/-- Whitespace as strings.Fields sees it, restricted to the ASCII
whitespace characters of unicode.IsSpace. -/
def isGoSpace (c : Char) : Bool :=
  c = ' ' || c = '\t' || c = '\n' || c = '\x0b' || c = '\x0c' || c = '\r'

/-- Accumulator pass of fields: cur holds the characters of the token being
read, in reverse. -/
def fieldsAux : List Char → List Char → List (List Char)
  | cur, [] => if cur.isEmpty then [] else [cur.reverse]
  | cur, c :: cs =>
    if isGoSpace c then
      if cur.isEmpty then fieldsAux [] cs
      else cur.reverse :: fieldsAux [] cs
    else fieldsAux (c :: cur) cs

/-- strings.Fields: the maximal runs of non-whitespace characters, by
structural recursion over the character list (the library splitting
functions are defined by well-founded recursion on byte positions and do
not evaluate inside proofs). -/
def fields (s : String) : List String :=
  (fieldsAux [] s.data).map String.mk

/-- The fixed whitelist of first tokens bashCommand accepts (the Go map
safeCommands). -/
def safeCommands : List String :=
  ["grep", "tail", "head", "awk", "sed", "wc", "cat", "sort", "uniq", "cut",
   "ls", "find", "ps", "lsof", "netstat", "ss", "df", "du", "free", "uptime",
   "whoami", "hostname", "uname", "env", "printenv", "which", "file", "stat",
   "id", "curl", "dig", "ping"]

/-- The validation part of Agent.bashCommand: the argv handed to exec when
the command is accepted, the validation error otherwise. The whole original
command string is the third argv element. -/
def bashCommandArgv (command : String) : Except String (List String) :=
  match fields command with
  | [] => .error "empty command"
  | p0 :: _ =>
    if p0 ∈ safeCommands then .ok ["bash", "-c", command]
    else .error ("command \x27" ++ p0
          ++ "\x27 is not allowed. Only read-only commands are permitted")

/-- Agent.bashCommand: validation, then a shell run whose failure is folded
into an ok result string, with output truncated to the first 10 KiB. -/
def bashCommand (w : World) (command : String) : Except String String :=
  match bashCommandArgv command with
  | .error e => .error e
  | .ok _ =>
    match w.shell command with
    | (some errDesc, output) =>
      .ok ("Command failed: " ++ errDesc ++ "\nOutput: " ++ output)
    | (none, output) =>
      if output.length > 10240 then
        .ok (output.take 10240 ++ "\n[... truncated ...]")
      else .ok output

/-- Agent.readFile: file contents truncated to the last 10 KiB with a
marker. -/
def readFileTool (w : World) (path : String) : Except String String :=
  match w.fs path with
  | .error e => .error ("failed to read file: " ++ e)
  | .ok content =>
    if content.length > 10240 then
      .ok ("[... truncated to last 10KB ...]\n"
            ++ content.drop (content.length - 10240))
    else .ok content

/-- The name computation at the head of Agent.startTask: a non-empty string
argument is used as is; otherwise (absent, empty, or not a string) the
command is used, truncated to its first 40 characters plus an ellipsis when
longer than 40. -/
def startTaskDefaultName (command : String) (nameVal : Option GoVal) :
    String :=
  match nameVal with
  | some (.vstr s) =>
    if s ≠ "" then s
    else if command.length > 40 then command.take 40 ++ "..." else command
  | _ => if command.length > 40 then command.take 40 ++ "..." else command

/-- Agent.startTask: computes the name, delegates to Manager.StartTask and
renders the outcome. -/
def agentStartTask (w : World) (s : Store) (command : String)
    (nameVal : Option GoVal) : Except String String × Store :=
  let name := startTaskDefaultName command nameVal
  match managerStartTask w s name command with
  | .error e => (.error ("failed to start task: " ++ e), s)
  | .ok (s2, id) => (.ok ("Started task " ++ toString id ++ ": " ++ name), s2)

/-- Agent.stopTask: delegates to Manager.StopTask and renders the outcome. -/
def agentStopTask (w : World) (s : Store) (id : Int) :
    Except String String × Store :=
  match managerStopTask w s id with
  | (.error e, s2, _) => (.error ("failed to stop task: " ++ e), s2)
  | (.ok _, s2, _) => (.ok ("Stopped task " ++ toString id), s2)

/-- The serialized snapshot Agent.getTaskInfo builds: the JSON object with
the keys in the order json.Marshal emits for a Go map (sorted), end_time
present only when set. Escaping of special characters inside the embedded
field values is not modelled. -/
def renderTaskInfo (w : World) (t : Task) : String :=
  "\x7b\n  \"command\": \"" ++ t.command ++ "\",\n"
  ++ (match t.endTime with
      | some e => "  \"end_time\": \"" ++ w.fmtTime e ++ "\",\n"
      | none => "")
  ++ "  \"id\": " ++ toString t.id ++ ",\n"
  ++ "  \"log_path\": \"" ++ t.logPath ++ "\",\n"
  ++ "  \"name\": \"" ++ t.name ++ "\",\n"
  ++ "  \"pid\": " ++ toString t.pid ++ ",\n"
  ++ "  \"start_time\": \"" ++ w.fmtTime t.startTime ++ "\",\n"
  ++ "  \"status\": \"" ++ statusStr t.status ++ "\"\n\x7d"

/-- Agent.getTaskInfo: the GetTask error (task not found) passes through,
otherwise the serialized snapshot. -/
def agentGetTaskInfo (w : World) (s : Store) (id : Int) :
    Except String String :=
  match getTask s id with
  | none => .error ("task " ++ toString id ++ " not found")
  | some t => .ok (renderTaskInfo w t)

/-- A tool call as returned by the model: a name and named arguments. -/
structure ToolCall where
  name : String
  args : List (String × GoVal)
deriving DecidableEq, Repr

/-- Agent.ExecuteTool: dispatch on the tool name. The unchecked Go type
assertions path.(string) and command.(string) panic on a non-string value;
that panic is modelled as an error result. The task_id argument is passed
through toInt, which never fails. -/
def executeTool (w : World) (s : Store) (tc : ToolCall) :
    Except String String × Store :=
  match tc.name with
  | "read_file" =>
    match tc.args.lookup "path" with
    | none => (.error "missing \x27path\x27 argument", s)
    | some (.vstr p) => (readFileTool w p, s)
    | some _ => (.error "panic: interface conversion", s)
  | "bash_command" =>
    match tc.args.lookup "command" with
    | none => (.error "missing \x27command\x27 argument", s)
    | some (.vstr c) => (bashCommand w c, s)
    | some _ => (.error "panic: interface conversion", s)
  | "start_task" =>
    match tc.args.lookup "command" with
    | none => (.error "missing \x27command\x27 argument", s)
    | some (.vstr c) => agentStartTask w s c (tc.args.lookup "name")
    | some _ => (.error "panic: interface conversion", s)
  | "stop_task" =>
    match tc.args.lookup "task_id" with
    | none => (.error "missing \x27task_id\x27 argument", s)
    | some v => agentStopTask w s (toInt v)
  | "get_task_info" =>
    match tc.args.lookup "task_id" with
    | none => (.error "missing \x27task_id\x27 argument", s)
    | some v => (agentGetTaskInfo w s (toInt v), s)
  | name => (.error ("unknown tool: " ++ name), s)

lemma bashCommandArgv_isOk_iff (command : String) :
    (bashCommandArgv command).isOk = true ↔
      ∃ t ts, fields command = t :: ts ∧ t ∈ safeCommands := by
  unfold bashCommandArgv
  cases hf : fields command with
  | nil => simp [Except.isOk, Except.toBool]
  | cons p0 rest =>
    by_cases h : p0 ∈ safeCommands
    · simp only [if_pos h, Except.isOk, Except.toBool]
      exact ⟨fun _ => ⟨p0, rest, rfl, h⟩, fun _ => trivial⟩
    · simp only [if_neg h, Except.isOk, Except.toBool]
      constructor
      · intro hc; cases hc
      · rintro ⟨t, ts, hts, hmem⟩
        cases hts
        exact absurd hmem h

lemma bashCommandArgv_isOk_head (command : String) :
    (bashCommandArgv command).isOk =
      match (fields command).head? with
      | none => false
      | some t => decide (t ∈ safeCommands) := by
  unfold bashCommandArgv
  cases hf : fields command with
  | nil => rfl
  | cons p0 rest =>
    by_cases h : p0 ∈ safeCommands
    · simp [if_pos h, Except.isOk, Except.toBool, h]
    · simp [if_neg h, Except.isOk, Except.toBool, h]

/-- C9: the accept/reject decision of bash_command depends only on the
first whitespace-separated token: it accepts exactly when there is a first
token and it is whitelisted, an accepted call hands the whole original
string to the shell as the argument of bash -c, and two command strings
with the same first token are accepted or rejected together. -/
theorem c9_bash_command_first_token (command : String) :
    ((bashCommandArgv command).isOk = true ↔
      ∃ t ts, fields command = t :: ts ∧ t ∈ safeCommands)
    ∧ (∀ argv, bashCommandArgv command = .ok argv →
        argv = ["bash", "-c", command])
    ∧ (∀ c2 : String, (fields command).head? = (fields c2).head? →
        (bashCommandArgv command).isOk = (bashCommandArgv c2).isOk) := by
  refine ⟨bashCommandArgv_isOk_iff command, ?_, ?_⟩
  · intro argv hargv
    unfold bashCommandArgv at hargv
    cases hf : fields command with
    | nil => rw [hf] at hargv; cases hargv
    | cons p0 rest =>
      rw [hf] at hargv
      dsimp only at hargv
      by_cases h : p0 ∈ safeCommands
      · rw [if_pos h] at hargv
        cases hargv
        rfl
      · rw [if_neg h] at hargv
        cases hargv
  · intro c2 hhead
    rw [bashCommandArgv_isOk_head, bashCommandArgv_isOk_head, hhead]

/-- C9 witness: a command whose first token is whitelisted is accepted even
though a later segment names a non-whitelisted program, and the argv is the
verbatim original string behind bash -c. -/
theorem c9_bash_command_first_token_witness :
    (∃ t ts, fields "grep x /tmp/f | rm -rf /tmp" = t :: ts
      ∧ t ∈ safeCommands)
    ∧ ["bash", "-c", "grep x /tmp/f | rm -rf /tmp"]
        = ["bash", "-c", "grep x /tmp/f | rm -rf /tmp"]
    ∧ (bashCommandArgv "grep x /tmp/f | rm -rf /tmp").isOk
        = (bashCommandArgv "grep y").isOk := by
  refine ⟨?_, ?_, ?_⟩
  · exact (c9_bash_command_first_token "grep x /tmp/f | rm -rf /tmp").1.mp
      (by decide)
  · exact (c9_bash_command_first_token "grep x /tmp/f | rm -rf /tmp").2.1
      ["bash", "-c", "grep x /tmp/f | rm -rf /tmp"] rfl
  · exact (c9_bash_command_first_token "grep x /tmp/f | rm -rf /tmp").2.2
      "grep y" (by decide)

/-- C10: a present task_id argument of a non-numeric dynamic type (here a
string) is coerced to 0 by toInt, stop_task and get_task_info dispatch for
task id 0, and when no task has id 0 both produce the task-not-found
outcome instead of an invalid-argument error. -/
theorem c10_nonnumeric_task_id (w : World) (s : Store) (x : String)
    (args : List (String × GoVal))
    (h : args.lookup "task_id" = some (.vstr x)) :
    toInt (.vstr x) = 0
    ∧ executeTool w s { name := "stop_task", args := args }
        = agentStopTask w s 0
    ∧ executeTool w s { name := "get_task_info", args := args }
        = (agentGetTaskInfo w s 0, s)
    ∧ (getTask s 0 = none →
        agentStopTask w s 0
            = (.error "failed to stop task: task 0 not found", s)
        ∧ agentGetTaskInfo w s 0 = .error "task 0 not found") := by
  refine ⟨rfl, ?_, ?_, ?_⟩
  · simp [executeTool, h, toInt]
  · simp [executeTool, h, toInt]
  · intro h0
    constructor
    · simp only [agentStopTask, managerStopTask, h0]
      rfl
    · simp only [agentGetTaskInfo, h0]
      rfl

/-- C10 witness: a concrete string-valued task_id on a table without id 0. -/
theorem c10_nonnumeric_task_id_witness :
    executeTool
        { kill := fun _ _ => true, alive := fun _ => true,
          spawnPid := some 11, fs := fun _ => .error "x",
          shell := fun _ => (none, ""), now := 20, logPath := "/l3",
          fmtTime := fun _ => "t" }
        [{ id := 4, name := "a", command := "x", pid := 7,
           status := .crashed, startTime := 3, endTime := some 9,
           logPath := "/l1", createdAt := 3 }]
        { name := "stop_task", args := [("task_id", .vstr "four")] }
      = agentStopTask
          { kill := fun _ _ => true, alive := fun _ => true,
            spawnPid := some 11, fs := fun _ => .error "x",
            shell := fun _ => (none, ""), now := 20, logPath := "/l3",
            fmtTime := fun _ => "t" }
          [{ id := 4, name := "a", command := "x", pid := 7,
             status := .crashed, startTime := 3, endTime := some 9,
             logPath := "/l1", createdAt := 3 }] 0 :=
  (c10_nonnumeric_task_id
    { kill := fun _ _ => true, alive := fun _ => true, spawnPid := some 11,
      fs := fun _ => .error "x", shell := fun _ => (none, ""), now := 20,
      logPath := "/l3", fmtTime := fun _ => "t" }
    [{ id := 4, name := "a", command := "x", pid := 7, status := .crashed,
       startTime := 3, endTime := some 9, logPath := "/l1", createdAt := 3 }]
    "four" [("task_id", .vstr "four")] (by decide)).2.1

/-- The 41-character command used to separate truncation to 40 characters
from truncation to 40 characters plus an ellipsis. -/
def cmd41 : String :=
  String.mk (List.replicate 41 'a')

/-- A concrete world in which spawning succeeds with pid 42. -/
def wC7 : World :=
  { kill := fun _ _ => true, alive := fun _ => true, spawnPid := some 42,
    fs := fun _ => .error "", shell := fun _ => (none, ""), now := 100,
    logPath := "/lp", fmtTime := fun _ => "" }

/-- C7 counterexample: starting a task with a 41-character command and no
name argument records a name that is NOT the command truncated to 40
characters: the code appends an ellipsis, giving 43 characters. -/
theorem c7_counterexample :
    (agentStartTask wC7 [] cmd41 none).2.map Task.name
      ≠ [cmd41.take 40] := by
  set_option maxRecDepth 10000 in decide

/-- C7 amended: with the name argument absent or the empty string, the
recorded default name is the command itself when it has at most 40
characters, and its first 40 characters with an appended ellipsis
otherwise. -/
theorem c7_default_name_amended (w : World) (s : Store) (command : String)
    (nameVal : Option GoVal)
    (hname : nameVal = none ∨ nameVal = some (.vstr ""))
    (pid : Int) (hp : w.spawnPid = some pid) (hc : command ≠ "") :
    ∃ t : Task,
      (agentStartTask w s command nameVal).2 = s ++ [t]
      ∧ t.name = (if command.length > 40 then command.take 40 ++ "..."
                  else command) := by
  have hn : startTaskDefaultName command nameVal
      = (if command.length > 40 then command.take 40 ++ "..." else command) := by
    rcases hname with h | h <;> simp [startTaskDefaultName, h]
  refine ⟨{ id := newTaskId s,
            name := if command.length > 40 then command.take 40 ++ "..."
                    else command,
            command := command, pid := pid, status := .running,
            startTime := w.now, endTime := none, logPath := w.logPath,
            createdAt := w.now }, ?_, rfl⟩
  simp [agentStartTask, managerStartTask, hc, hp, createTask, hn]

/-- C7 amended witness: a 41-character command with no name argument yields
the 40-character head plus ellipsis as the recorded name. -/
theorem c7_default_name_amended_witness :
    ∃ t : Task,
      (agentStartTask wC7 [] cmd41 none).2 = [] ++ [t]
      ∧ t.name = (if cmd41.length > 40 then cmd41.take 40 ++ "..."
                  else cmd41) :=
  c7_default_name_amended wC7 [] cmd41 none (Or.inl rfl) 42 rfl (by decide)

/-- A chat message as in api.Message: role, text content and the tool calls
attached to an assistant reply. -/
structure Message where
  role : String
  content : String
  toolCalls : List ToolCall := []
deriving DecidableEq, Repr

/-- Shorthand for a system-role message. -/
def systemMessage (content : String) : Message :=
  { role := "system", content := content }

/-- Shorthand for a user-role message. -/
def userMessage (content : String) : Message :=
  { role := "user", content := content }

/-- The environment facts the system prompt embeds: hostname, runtime.GOOS,
runtime.GOARCH, working directory and the SHELL variable. -/
structure EnvFacts where
  hostname : String
  goos : String
  goarch : String
  cwd : String
  shellVar : String

/-- One line of the task table rendered into the system prompt. -/
def renderTaskLine (t : Task) : String :=
  "  - [" ++ toString t.id ++ "] " ++ t.name ++ " | cmd: " ++ t.command
  ++ " | status: " ++ statusStr t.status ++ " | pid: " ++ toString t.pid
  ++ " | log: " ++ t.logPath ++ "\n"

/-- The rendered task table (tasksContext in buildSystemPrompt). -/
def renderTasksContext (tasks : List Task) : String :=
  tasks.foldl (fun acc t => acc ++ renderTaskLine t) ""

/-- The full system prompt of buildSystemPrompt. -/
def renderSystemPrompt (env : EnvFacts) (tasks : List Task) : String :=
  "You are a helpful assistant managing and analyzing background tasks.\nYou have access to tools to read files, execute bash commands, get task info, start tasks, and stop tasks.\n\nEnvironment:\n  hostname: "
  ++ env.hostname ++ "\n  os: " ++ env.goos ++ "/" ++ env.goarch
  ++ "\n  cwd: " ++ env.cwd ++ "\n  shell: " ++ env.shellVar
  ++ "\n\nAll tasks:\n" ++ renderTasksContext tasks
  ++ "\nYou are an operator. When the user asks you to do something, don\x27t just answer -- do it.\n\nApproach:\n1. Figure out what\x27s needed: read files, check running processes, inspect logs, look at the environment.\n2. Do the work: start services, run setup scripts, install dependencies, configure things.\n3. Verify it worked: check health endpoints, read logs for errors, confirm processes are running.\n4. If something fails: read the logs, diagnose the issue, fix it, and retry. Keep going until it works or you\x27ve exhausted your options.\n\nDon\x27t ask the user what to do -- investigate and act. Use bash_command to explore the system, read_file to check configs and logs, start_task to run things in the background, and stop_task to kill broken processes.\n\nBe concise. Show what you did and what happened, not what you could do."

/-- The system prompt substituted when listing the tasks fails. -/
def fallbackSystemContent : String :=
  "You are a helpful assistant analyzing logs for background tasks. (Failed to load task list.)"

/-- Conversation.buildSystemPrompt, also the body of RefreshSystemPrompt:
on a listing error the message slice is REPLACED by the single fallback
system message; on success message 0 is set in place when the conversation
already has messages, and the slice is initialized otherwise. -/
def buildSystemPrompt (listResult : Except String (List Task))
    (env : EnvFacts) (msgs : List Message) : List Message :=
  match listResult with
  | .error _ => [systemMessage fallbackSystemContent]
  | .ok tasks =>
    let sp := renderSystemPrompt env tasks
    if msgs.length > 0 then msgs.set 0 (systemMessage sp)
    else [systemMessage sp]

/-- The character total of a history (the Go code sums byte lengths of the
contents; character counts agree on the ASCII inputs used here). -/
def totalChars (msgs : List Message) : Nat :=
  msgs.foldl (fun acc m => acc + m.content.length) 0

/-- Conversation.trimContext: no change when the estimated token count
totalChars/4 is within 16000 or at most 21 messages exist; otherwise keeps
message 0, messages 1 to 4 and the 16 most recent messages. -/
def trimContext (msgs : List Message) : List Message :=
  if totalChars msgs / 4 ≤ 16000 then msgs
  else if msgs.length ≤ 21 then msgs
  else msgs.take 1 ++ (msgs.drop 1).take 4 ++ msgs.drop (msgs.length - 16)

/-- Terminal failures of a SendWithEvents turn: the context error, a chat
request failure, and the iteration cap. -/
inductive AgentError where
  | cancelled
  | chatFailed
  | maxIterations
deriving DecidableEq, Repr

/-- The events SendWithEvents hands to its callbacks, in order. -/
inductive ToolEvent where
  | start (tool : String) (args : List (String × GoVal))
  | result (tool : String) (res : String)
deriving DecidableEq, Repr

/-- The mutable state of one SendWithEvents turn: the history, the task
table, how many chat (network) calls were made, how many times ctx.Err was
consulted, and the emitted events. -/
structure TurnState where
  msgs : List Message
  store : Store
  chats : Nat
  checks : Nat
  events : List ToolEvent
deriving Repr

/-- The inner tool loop of SendWithEvents: before each tool call the
context is consulted (ctxErr indexed by the running count of checks);
execution errors are folded into the result string; a start event, the
execution, a result event and a tool message follow in that order. -/
def runTools (ctxErr : Nat → Bool) (w : World) :
    List ToolCall → TurnState → Option AgentError × TurnState
  | [], st => (none, st)
  | tc :: rest, st =>
    if ctxErr st.checks then
      (some .cancelled, { st with checks := st.checks + 1 })
    else
      let st1 := { st with
                   checks := st.checks + 1,
                   events := st.events ++ [ToolEvent.start tc.name tc.args] }
      let resPair := executeTool w st1.store tc
      let resultStr := match resPair.1 with
        | .error e => "Error executing tool: " ++ e
        | .ok r => r
      let st2 := { st1 with
                   store := resPair.2,
                   events := st1.events ++ [ToolEvent.result tc.name resultStr],
                   msgs := st1.msgs
                     ++ [({ role := "tool", content := resultStr } : Message)] }
      runTools ctxErr w rest st2

/-- The iteration loop of SendWithEvents: each round consults the context,
performs one chat call (the oracle gives the model reply for the n-th call,
none modelling a failed request), appends the reply, and either finishes on
a reply without tool calls or runs the tools and continues. Exhausted fuel
is the exceeded-maximum-iterations error. -/
def execLoop (ctxErr : Nat → Bool) (w : World)
    (oracle : Nat → Option Message) :
    Nat → TurnState → Except AgentError String × TurnState
  | 0, st => (.error .maxIterations, st)
  | fuel + 1, st =>
    if ctxErr st.checks then
      (.error .cancelled, { st with checks := st.checks + 1 })
    else
      let st1 := { st with checks := st.checks + 1 }
      match oracle st1.chats with
      | none => (.error .chatFailed, { st1 with chats := st1.chats + 1 })
      | some reply =>
        let st2 := { st1 with
                     chats := st1.chats + 1,
                     msgs := st1.msgs ++ [reply] }
        if reply.toolCalls.isEmpty then (.ok reply.content, st2)
        else
          match runTools ctxErr w reply.toolCalls st2 with
          | (some e, st3) => (.error e, st3)
          | (none, st3) => execLoop ctxErr w oracle fuel st3

/-- Conversation.SendWithEvents: appends the user message, trims the
context, then runs up to 10 iterations of the loop. -/
def sendWithEvents (ctxErr : Nat → Bool) (w : World)
    (oracle : Nat → Option Message) (s : Store) (msgs : List Message)
    (userText : String) : Except AgentError String × TurnState :=
  let msgs2 := trimContext (msgs ++ [userMessage userText])
  execLoop ctxErr w oracle 10
    { msgs := msgs2, store := s, chats := 0, checks := 0, events := [] }

lemma totalChars_eq_sum (l : List Message) :
    totalChars l = (l.map (fun m => m.content.length)).sum := by
  have h : ∀ (l : List Message) (init : Nat),
      l.foldl (fun acc m => acc + m.content.length) init
        = init + (l.map (fun m => m.content.length)).sum := by
    intro l
    induction l with
    | nil => intro init; simp
    | cons m ms ih => intro init; simp [ih]; omega
  simpa [totalChars] using h l 0

/-- An ASCII user message of exactly n characters. -/
def bigUserMsg (n : Nat) : Message :=
  { role := "user", content := String.mk (List.replicate n 'a') }

/-- An empty filler message. -/
def padMsg : Message :=
  { role := "user", content := "" }

lemma totalChars_big (n : Nat) :
    totalChars (bigUserMsg n :: List.replicate 21 padMsg) = n := by
  rw [totalChars_eq_sum]
  have hb : (String.mk (List.replicate n 'a')).length = n := by
    show (List.replicate n 'a').length = n
    exact List.length_replicate n 'a'
  simp [bigUserMsg, padMsg, hb, List.map_replicate, List.sum_replicate]

/-- A 22-message history of 64004 characters: the estimate 16001 exceeds
the budget, so the trimming branch is taken. -/
def msgsOverBudget : List Message :=
  bigUserMsg 64004 :: List.replicate 21 padMsg

/-- A 22-message history of exactly 64000 characters: the estimate is
exactly 16000, the boundary the claim and the code read differently. -/
def msgsAtBudget : List Message :=
  bigUserMsg 64000 :: List.replicate 21 padMsg

/-- The trimming contract exactly as the claim words it: unchanged when
the estimate totalChars/4 is strictly under 16000 or fewer than 21
messages exist, and otherwise exactly message 0, messages 1 to 4 and the
most recent 16. -/
def trimContextClaimC5 (msgs : List Message) : Prop :=
  ((totalChars msgs / 4 < 16000 ∨ msgs.length < 21) → trimContext msgs = msgs)
  ∧ (¬ (totalChars msgs / 4 < 16000 ∨ msgs.length < 21) →
      trimContext msgs
        = msgs.take 1 ++ (msgs.drop 1).take 4
            ++ msgs.drop (msgs.length - 16))

/-- C5 counterexample: on a 22-message history whose estimate is exactly
16000, the claim prescribes trimming to 21 messages, but the code compares
with at-most and leaves all 22 messages in place. -/
theorem c5_counterexample : ¬ trimContextClaimC5 msgsAtBudget := by
  intro hcl
  have htot : totalChars msgsAtBudget = 64000 := totalChars_big 64000
  have hlen : msgsAtBudget.length = 22 := by
    simp [msgsAtBudget, List.length_replicate]
  have hcond : ¬ (totalChars msgsAtBudget / 4 < 16000
      ∨ msgsAtBudget.length < 21) := by
    rw [htot, hlen]; decide
  have h2 := hcl.2 hcond
  have hle : totalChars msgsAtBudget / 4 ≤ 16000 := by rw [htot]
  have htrim : trimContext msgsAtBudget = msgsAtBudget := by
    unfold trimContext
    rw [if_pos hle]
  rw [htrim] at h2
  have hlength := congrArg List.length h2
  simp only [List.length_append, List.length_take, List.length_drop, hlen]
    at hlength
  omega

/-- C5 amended: trimContext leaves the history unchanged when the estimate
totalChars/4 is AT MOST 16000 (not strictly under it) or fewer than 21
messages exist; when the estimate exceeds 16000 and at least 21 messages
exist the result is exactly message 0, messages 1 to 4 and the most recent
16 messages. -/
theorem c5_trimContext_amended (msgs : List Message) :
    ((totalChars msgs / 4 ≤ 16000 ∨ msgs.length < 21) →
      trimContext msgs = msgs)
    ∧ (16000 < totalChars msgs / 4 → 21 ≤ msgs.length →
        trimContext msgs
          = msgs.take 1 ++ (msgs.drop 1).take 4
              ++ msgs.drop (msgs.length - 16)) := by
  constructor
  · intro h
    unfold trimContext
    split_ifs with h1 h2
    · rfl
    · rfl
    · rcases h with h | h
      · exact absurd h h1
      · exact absurd (Nat.le_of_lt h) h2
  · intro hb hl
    unfold trimContext
    split_ifs with h1 h2
    · exact absurd h1 (by omega)
    · have hlen : msgs.length = 21 := Nat.le_antisymm h2 hl
      rw [hlen, show (21 - 16 : Nat) = 5 from rfl,
        show msgs.take 1 ++ (msgs.drop 1).take 4 = msgs.take 5 by
          rw [show (5 : Nat) = 1 + 4 from rfl, List.take_add],
        List.take_append_drop]
    · rfl

/-- C5 amended witness: on the concrete over-budget 22-message history the
trimming branch applies and produces the described concatenation. -/
theorem c5_trimContext_amended_witness :
    16000 < totalChars msgsOverBudget / 4
    ∧ 21 ≤ msgsOverBudget.length
    ∧ trimContext msgsOverBudget
        = msgsOverBudget.take 1 ++ (msgsOverBudget.drop 1).take 4
            ++ msgsOverBudget.drop (msgsOverBudget.length - 16) := by
  have h1 : 16000 < totalChars msgsOverBudget / 4 := by
    have ht : totalChars msgsOverBudget = 64004 := totalChars_big 64004
    omega
  have h2 : 21 ≤ msgsOverBudget.length := by
    simp [msgsOverBudget, List.length_replicate]
  exact ⟨h1, h2, (c5_trimContext_amended msgsOverBudget).2 h1 h2⟩

lemma trimContext_of_length_le {msgs : List Message}
    (h : msgs.length ≤ 21) : trimContext msgs = msgs := by
  unfold trimContext
  split_ifs with h1 <;> rfl

lemma trimContext_eq_or_small (msgs : List Message) :
    trimContext msgs = msgs ∨ (trimContext msgs).length ≤ 21 := by
  unfold trimContext
  split_ifs with h1 h2
  · exact Or.inl rfl
  · exact Or.inl rfl
  · right
    simp [List.length_append, List.length_take, List.length_drop]
    omega

/-- C8: trimContext is idempotent: when the first application truncates,
the result has exactly 21 messages and falls under the message-count early
return of the second application; when it does not truncate, the second
application sees the same history. -/
theorem c8_trimContext_idempotent (msgs : List Message) :
    trimContext (trimContext msgs) = trimContext msgs := by
  rcases trimContext_eq_or_small msgs with h | h
  · rw [h]
    exact h
  · exact trimContext_of_length_le h

/-- Concrete environment facts for the conversation examples. -/
def envC6 : EnvFacts :=
  { hostname := "h", goos := "linux", goarch := "amd64", cwd := "/w",
    shellVar := "/bin/bash" }

/-- A two-message conversation: a system prompt and one user message. -/
def msgsC6 : List Message :=
  [systemMessage "old", userMessage "hello"]

/-- C6 counterexample: when listing the tasks fails, buildSystemPrompt (the
body of RefreshSystemPrompt) replaces the WHOLE history by the single
fallback system message, so the message at index 1 does not survive the
call. -/
theorem c6_counterexample :
    (buildSystemPrompt (.error "db closed") envC6 msgsC6).get? 1
      ≠ msgsC6.get? 1 := by
  decide

/-- C6 amended: when the task listing succeeds, RefreshSystemPrompt
replaces message 0 of a non-empty conversation by the freshly rendered
prompt and leaves every message at index 1 and beyond unchanged; when the
listing fails, the history is replaced by the single fallback system
message. -/
theorem c6_refresh_amended (env : EnvFacts) (tasks : List Task)
    (msgs : List Message) (hlen : 1 ≤ msgs.length) :
    (∀ i, 1 ≤ i →
      (buildSystemPrompt (.ok tasks) env msgs).get? i = msgs.get? i)
    ∧ (buildSystemPrompt (.ok tasks) env msgs).get? 0
        = some (systemMessage (renderSystemPrompt env tasks))
    ∧ (∀ e, buildSystemPrompt (.error e) env msgs
        = [systemMessage fallbackSystemContent]) := by
  cases msgs with
  | nil => simp at hlen
  | cons m ms =>
    refine ⟨?_, ?_, fun e => rfl⟩
    · intro i hi
      match i, hi with
      | (j + 1), _ => simp [buildSystemPrompt]
    · simp [buildSystemPrompt]

/-- C6 amended witness: refreshing the two-message conversation on a
successful (empty) task listing leaves the user message at index 1 in
place. -/
theorem c6_refresh_amended_witness :
    (buildSystemPrompt (.ok []) envC6 msgsC6).get? 1 = msgsC6.get? 1 :=
  (c6_refresh_amended envC6 [] msgsC6 (by decide)).1 1 (by decide)

lemma mem_trimContext {msgs : List Message} {m : Message}
    (h : m ∈ trimContext msgs) : m ∈ msgs := by
  unfold trimContext at h
  split_ifs at h
  · exact h
  · exact h
  · rcases List.mem_append.mp h with h | h
    · rcases List.mem_append.mp h with h | h
      · exact List.take_subset _ _ h
      · exact List.drop_subset _ _ (List.take_subset _ _ h)
    · exact List.drop_subset _ _ h

lemma execLoop_cancelled (ctxErr : Nat → Bool) (w : World)
    (oracle : Nat → Option Message) (fuel : Nat) (st : TurnState)
    (h : ctxErr st.checks = true) :
    execLoop ctxErr w oracle (fuel + 1) st
      = (.error .cancelled, { st with checks := st.checks + 1 }) := by
  simp [execLoop, h]

/-- C4: when the context is already cancelled as SendWithEvents begins,
the turn fails with the cancellation error before any chat call: no
network call is made, no tool event is emitted, the task table is
untouched, and the final history is the trimmed original history plus the
user message — in particular every message of the final history already
was in the history-plus-user-message, so nothing else was appended. -/
theorem c4_precancelled_send (ctxErr : Nat → Bool) (w : World)
    (oracle : Nat → Option Message) (s : Store) (msgs : List Message)
    (text : String) (h : ctxErr 0 = true) :
    (sendWithEvents ctxErr w oracle s msgs text).1 = .error .cancelled
    ∧ (sendWithEvents ctxErr w oracle s msgs text).2.chats = 0
    ∧ (sendWithEvents ctxErr w oracle s msgs text).2.events = []
    ∧ (sendWithEvents ctxErr w oracle s msgs text).2.store = s
    ∧ (sendWithEvents ctxErr w oracle s msgs text).2.msgs
        = trimContext (msgs ++ [userMessage text])
    ∧ ∀ m ∈ (sendWithEvents ctxErr w oracle s msgs text).2.msgs,
        m ∈ msgs ++ [userMessage text] := by
  have hrun : sendWithEvents ctxErr w oracle s msgs text
      = (.error .cancelled,
         { msgs := trimContext (msgs ++ [userMessage text]), store := s,
           chats := 0, checks := 1, events := [] }) := by
    show execLoop ctxErr w oracle 10
        { msgs := trimContext (msgs ++ [userMessage text]), store := s,
          chats := 0, checks := 0, events := [] } = _
    rw [show (10 : Nat) = 9 + 1 from rfl]
    exact execLoop_cancelled ctxErr w oracle 9 _ h
  refine ⟨by rw [hrun], by rw [hrun], by rw [hrun], by rw [hrun],
    by rw [hrun], ?_⟩
  intro m hm
  rw [hrun] at hm
  exact mem_trimContext hm

/-- C4 witness: a context cancelled from the start on an empty history. -/
theorem c4_precancelled_send_witness :
    (sendWithEvents (fun _ => true) wC7 (fun _ => none) [] [] "hi").1
        = .error .cancelled
    ∧ (sendWithEvents (fun _ => true) wC7 (fun _ => none) [] [] "hi").2.chats
        = 0 := by
  have hc := c4_precancelled_send (fun _ => true) wC7 (fun _ => none)
    [] [] "hi" rfl
  exact ⟨hc.1, hc.2.1⟩

end Watchy
